import Mathlib

/-!
# keybase-rss: refresh, retention and the per-channel key-value namespace

A shallow embedding of `main.go` / `types.go`.

* Go strings are modelled by `String`; the two `strings` functions the bot
  calls (`Split`, `Replace`) are written out over the character lists.
* The Keybase key-value store is a list of entries addressed by team,
  namespace and key.  Every store call takes a flag saying whether this call
  fails with a transport error; a failed call leaves the store as it was.
* `json.Marshal`, `json.Unmarshal`, the feed parser and the wall clock are
  fields of `Env`: the theorems hold for every choice of them.
* A nil-pointer dereference is an explicit `Outcome.panicked`.
-/

namespace KeybaseRss

/-! ## Go `strings` -/

/-- Go `strings.Index` on character lists: the position of the first
occurrence of `sep` in `s`, `none` standing for `-1`. -/
def stringsIndex (sep : List Char) : List Char → Option Nat
  | [] => if sep = [] then some 0 else none
  | c :: cs =>
    if sep.isPrefixOf (c :: cs) then some 0
    else (stringsIndex sep cs).map (· + 1)

/-- The loop of Go `genSplit`: cut at the first occurrence of `sep`, continue
behind it.  Go bounds the loop by `Count(s, sep)`; here the bound is a number
of rounds that the caller sets to the length of the string. -/
def splitLoop (sep : List Char) : Nat → List Char → List (List Char)
  | 0, s => [s]
  | n + 1, s =>
    match stringsIndex sep s with
    | none => [s]
    | some m => s.take m :: splitLoop sep n (s.drop (m + sep.length))

/-- Go `strings.Split(s, sep)`.  With an empty separator Go explodes the
string into its characters. -/
def stringsSplit (s sep : String) : List String :=
  if sep.data = [] then s.data.map (fun c => String.mk [c])
  else (splitLoop sep.data s.data.length s.data).map String.mk

/-- The loop of Go `strings.Replace` with a non-empty `old`: copy up to the
next occurrence, write `new`, continue behind the occurrence. -/
def replaceLoop (old new : List Char) : Nat → List Char → List Char
  | 0, s => s
  | n + 1, s =>
    match stringsIndex old s with
    | none => s
    | some m => s.take m ++ new ++ replaceLoop old new n (s.drop (m + old.length))

/-- Go `strings.Replace(s, old, new, -1)` for a non-empty `old` (the only use
in the bot is `old = "<br />"`). -/
def stringsReplaceAll (s old new : String) : String :=
  if old = new then s
  else String.mk (replaceLoop old.data new.data s.data.length s.data)

/-- The separator `sep` occurs in `s` at position `p`: the characters of `s`
from `p` on start with `sep`. -/
def occursAt (sep s : List Char) (p : Nat) : Prop :=
  (s.drop p).take sep.length = sep

instance (sep s : List Char) (p : Nat) : Decidable (occursAt sep s p) :=
  inferInstanceAs (Decidable ((s.drop p).take sep.length = sep))

/-! ## `types.go` -/

/-- Subscription links Team/Channel/User to Feed. -/
structure Subscription where
  Channel : String
  Team : Bool
  User : String
  Url : String
deriving DecidableEq, Repr

/-- The record stored per feed item. -/
structure Post where
  Title : String
  Description : String
  Link : String
  Id : String
  Pubdate : String
deriving DecidableEq, Repr

/-! ## The feed (`gofeed`) -/

/-- The fields of `gofeed.Item` that `refresh` reads.  `PublishedParsed` is a
`*time.Time`: `none` is the nil pointer, `some t` a point in time in
nanoseconds since the epoch. -/
structure Item where
  Title : String
  Description : String
  Link : String
  GUID : String
  Published : String
  PublishedParsed : Option Int
deriving DecidableEq, Repr

/-- The part of `gofeed.Feed` that `refresh` reads. -/
structure Feed where
  Items : List Item
deriving DecidableEq, Repr

/-! ## Time -/

/-- Go `time.Hour` in nanoseconds. -/
def Hour : Int := 3600 * 1000000000

/-- Largest `time.Duration` (`1<<63 - 1`). -/
def maxDuration : Int := 2 ^ 63 - 1

/-- Smallest `time.Duration` (`-1 << 63`). -/
def minDuration : Int := -(2 ^ 63)

/-- Go `time.Since(t)` when the clock reads `now`: `now.Sub(t)`, which
saturates at the bounds of `int64` nanoseconds. -/
def timeSince (now t : Int) : Int :=
  if now - t > maxDuration then maxDuration
  else if now - t < minDuration then minDuration
  else now - t

/-- The bound `(10*24)*time.Hour` of the retention test. -/
def retentionWindow : Int := (10 * 24) * Hour

/-- The bound `24*time.Hour` of the notification test. -/
def freshnessWindow : Int := 24 * Hour

/-! ## The key-value store (`samhofi.us/x/keybase`) -/

/-- Why a store call failed. -/
inductive StoreError
  | NotFound
  | StoreUnavailable
deriving DecidableEq, Repr

/-- One stored entry: team (the channel name handed to `NewKV`), namespace,
key and value. -/
structure Entry where
  team : String
  ns : String
  entryKey : String
  entryValue : String
deriving DecidableEq, Repr

/-- The store: all entries of all teams. -/
abbrev KVStore := List Entry

/-- Does the entry live under this team, namespace and key? -/
def Entry.isAt (e : Entry) (team ns key : String) : Bool :=
  e.team == team && e.ns == ns && e.entryKey == key

/-- The value under a key, if any. -/
def kvLookup (kv : KVStore) (team ns key : String) : Option String :=
  (kv.find? (fun e => e.isAt team ns key)).map (fun e => e.entryValue)

/-- The keys present in a namespace of a team. -/
def kvKeyList (kv : KVStore) (team ns : String) : List String :=
  (kv.filter (fun e => e.team == team && e.ns == ns)).map (fun e => e.entryKey)

/-- The store without the given key. -/
def kvRemove (kv : KVStore) (team ns key : String) : KVStore :=
  kv.filter (fun e => !e.isAt team ns key)

/-- Modelled from the spec: the store contract of section 4.1 (the Keybase
client library is not part of the repository).  `get` fails with `NotFound`
if the key is absent and with `StoreUnavailable` on a backend failure
(`fail = true`). -/
def kvGet (fail : Bool) (kv : KVStore) (team ns key : String) : Except StoreError String :=
  if fail then .error .StoreUnavailable
  else
    match kvLookup kv team ns key with
    | none => .error .NotFound
    | some v => .ok v

/-- Modelled from the spec: `put` is an upsert and fails only with
`StoreUnavailable`; a failed call changes nothing. -/
def kvPut (fail : Bool) (kv : KVStore) (team ns key value : String) : Except StoreError KVStore :=
  if fail then .error .StoreUnavailable
  else .ok (⟨team, ns, key, value⟩ :: kvRemove kv team ns key)

/-- Modelled from the spec: `delete` fails only with `StoreUnavailable`;
deleting an absent key is not an error. -/
def kvDelete (fail : Bool) (kv : KVStore) (team ns key : String) : Except StoreError KVStore :=
  if fail then .error .StoreUnavailable
  else .ok (kvRemove kv team ns key)

/-- Modelled from the spec: `listKeys` fails only with `StoreUnavailable`. -/
def kvKeys (fail : Bool) (kv : KVStore) (team ns : String) : Except StoreError (List String) :=
  if fail then .error .StoreUnavailable
  else .ok (kvKeyList kv team ns)

/-! ## The world around one command -/

/-- Which store calls of one command fail.  `delete n` and `put n` speak of
the delete and the put issued in the `n`-th round of the command's loop (each
round issues at most one of each). -/
structure Faults where
  get : Bool
  keys : Bool
  delete : Nat → Bool
  put : Nat → Bool

/-- Everything outside the bot that one `refresh` call depends on. -/
structure Env where
  /-- `json.Marshal` on a `Post`. -/
  marshalPost : Post → String
  /-- `json.Unmarshal` into a `Subscription`; `none` is a decoding error. -/
  unmarshalSub : String → Option Subscription
  /-- `fp.ParseURL`; `none` is a fetch or parse error. -/
  parseURL : String → Option Feed
  /-- The value of `time.Now()` at its `n`-th reading during the call. -/
  clock : Nat → Int
  faults : Faults

/-- What a command did to the outside, in order.  `item` is the position in
the feed of the item whose round issued the call. -/
inductive Event
  | send (item : Nat) (channel body : String)
  | delete (item : Nat) (key : String)
  | put (item : Nat) (key value : String)
deriving DecidableEq, Repr

/-- The feed position a logged call belongs to. -/
def Event.item : Event → Nat
  | .send i _ _ => i
  | .delete i _ => i
  | .put i _ _ => i

/-- Is the logged call a `chat.Send` issued for the item at position `i`? -/
def Event.isSendFor (i : Nat) : Event → Bool
  | .send j _ _ => j == i
  | _ => false

/-- Is the logged call a `Put` issued for the item at position `i`? -/
def Event.isPutFor (i : Nat) : Event → Bool
  | .put j _ _ => j == i
  | _ => false

/-- How a `refresh` call ended: an early `return`, the end of the item loop,
or a runtime panic. -/
inductive Outcome
  | aborted
  | completed
  | panicked
deriving DecidableEq, Repr

/-- The store after a `refresh` call, the calls it issued, and how it ended. -/
structure Result where
  store : KVStore
  log : List Event
  outcome : Outcome
deriving DecidableEq, Repr

/-! ## `refresh` -/

/-- Lines 152-158: the identifier of an item.  `none` is an index out of
range in `testSlice[len(testSlice)-1]`. -/
def resolveId (item : Item) : Option String :=
  if item.GUID = "" then
    let testSlice := stringsSplit item.Link "id="
    testSlice.get? (testSlice.length - 1)
  else some item.GUID

/-- The text handed to `chat.Send` (line 173). -/
def notification (post : Post) : String :=
  ">" ++ post.Title ++ "\n```" ++ post.Description ++ "\n```\n>" ++ post.Pubdate ++ "\n" ++ post.Link

/-- Lines 148-158: the `Post` built for an item, given its identifier. -/
def mkPost (item : Item) (id : String) : Post :=
  { Title := stringsReplaceAll item.Title "<br />" " "
    Description := stringsReplaceAll item.Description "<br />" " "
    Link := item.Link
    Id := id
    Pubdate := item.Published }

/-- One round of the item loop (lines 147-191) for the item at position `i`.
`none` is a runtime panic; otherwise the store after the round and the calls
the round issued. -/
def refreshItem (env : Env) (channel : String) (existingKeys : List String)
    (i : Nat) (item : Item) (kv : KVStore) : Option (KVStore × List Event) :=
  match resolveId item with
  | none => none
  | some id =>
    let post := mkPost item id
    let found := existingKeys.contains post.Id
    match item.PublishedParsed with
    | none => none
    | some t =>
      let afterDelete : KVStore × List Event :=
        if timeSince (env.clock (2 * i)) t < retentionWindow && found then
          match kvDelete (env.faults.delete i) kv channel "keybase-rss" post.Id with
          | .ok kv1 => (kv1, [Event.delete i post.Id])
          | .error _ => (kv, [Event.delete i post.Id])
        else (kv, [])
      let afterSend : List Event × Bool :=
        if timeSince (env.clock (2 * i + 1)) t < freshnessWindow && !found then
          ([Event.send i channel (notification post)], found)
        else ([], true)
      if afterSend.2 then some (afterDelete.1, afterDelete.2 ++ afterSend.1)
      else
        let jsonPost := env.marshalPost post
        match kvPut (env.faults.put i) afterDelete.1 channel "keybase-rss" post.Id jsonPost with
        | .ok kv2 =>
          some (kv2, afterDelete.2 ++ afterSend.1 ++ [Event.put i post.Id jsonPost])
        | .error _ =>
          some (afterDelete.1, afterDelete.2 ++ afterSend.1 ++ [Event.put i post.Id jsonPost])

/-- The item loop of `refresh` (line 146), from position `i` on. -/
def refreshLoop (env : Env) (channel : String) (existingKeys : List String) :
    Nat → List Item → KVStore → Result
  | _, [], kv => ⟨kv, [], .completed⟩
  | i, item :: rest, kv =>
    match refreshItem env channel existingKeys i item kv with
    | none => ⟨kv, [], .panicked⟩
    | some (kv1, evs) =>
      let r := refreshLoop env channel existingKeys (i + 1) rest kv1
      ⟨r.store, evs ++ r.log, r.outcome⟩

/-- The command `refresh` (lines 115-194) on the channel named `channel`. -/
def refresh (env : Env) (channel : String) (kv : KVStore) : Result :=
  match kvGet env.faults.get kv channel "keybase-rss" "config" with
  | .error _ => ⟨kv, [], .aborted⟩
  | .ok resKey =>
    match kvKeys env.faults.keys kv channel "keybase-rss" with
    | .error _ => ⟨kv, [], .aborted⟩
    | .ok existingKeys =>
      match env.unmarshalSub resKey with
      | none => ⟨kv, [], .aborted⟩
      | some sub =>
        match env.parseURL sub.Url with
        | none => ⟨kv, [], .aborted⟩
        | some feed => refreshLoop env channel existingKeys 0 feed.Items kv

/-- The call passes the four early returns of `refresh` and enters the item
loop with `feed`: the config record is read and decoded, the keys are listed
and the configured URL is fetched and parsed. -/
def ReachesLoop (env : Env) (channel : String) (kv : KVStore) (feed : Feed) : Prop :=
  env.faults.get = false ∧ env.faults.keys = false ∧
    ∃ cfg sub, kvLookup kv channel "keybase-rss" "config" = some cfg ∧
      env.unmarshalSub cfg = some sub ∧ env.parseURL sub.Url = some feed

/-! ## `status` and `unsubscribe` -/

/-- The command `status` (lines 216-226): the messages it sends. -/
def status (faults : Faults) (channel : String) (kv : KVStore) : List String :=
  match kvGet faults.get kv channel "keybase-rss" "config" with
  | .error _ => []
  | .ok v => ["Current status: ```" ++ v ++ "```"]

/-- The delete loop of `unsubscribe` (lines 236-242), from position `i` on:
the first failing delete ends the command. -/
def unsubscribeLoop (faults : Faults) (channel : String) : Nat → List String → KVStore → KVStore
  | _, [], kv => kv
  | i, key :: rest, kv =>
    match kvDelete (faults.delete i) kv channel "keybase-rss" key with
    | .error _ => kv
    | .ok kv1 => unsubscribeLoop faults channel (i + 1) rest kv1

/-- The command `unsubscribe` (lines 228-244): the store after it. -/
def unsubscribe (faults : Faults) (channel : String) (kv : KVStore) : KVStore :=
  match kvKeys faults.keys kv channel "keybase-rss" with
  | .error _ => kv
  | .ok keys => unsubscribeLoop faults channel 0 keys kv

/-! ## Sample surroundings for the concrete scenarios -/

/-- No store call fails. -/
def noFaults : Faults := ⟨false, false, fun _ => false, fun _ => false⟩

/-- A plain rendering of a `Post` as a JSON object (no escaping), standing in
for `json.Marshal` in the concrete scenarios. -/
def samplePostJson (p : Post) : String :=
  "\x7b\"title\":\"" ++ p.Title ++ "\",\"description\":\"" ++ p.Description ++
    "\",\"link\":\"" ++ p.Link ++ "\",\"id\":\"" ++ p.Id ++ "\",\"pubDate\":\"" ++ p.Pubdate ++ "\"\x7d"

/-- The config value used in the concrete scenarios. -/
def sampleConfig : String := "cfg"

/-- The subscription that `sampleConfig` decodes to. -/
def sampleSub : Subscription := ⟨"chan", false, "alice", "https://x/feed"⟩

/-- A point in time for the concrete scenarios, in nanoseconds. -/
def sampleNow : Int := 1000 * 24 * Hour

/-- Surroundings in which the configured URL serves `feed`, the clock stands
at `sampleNow` and the store calls fail as `faults` says. -/
def sampleEnv (feed : Feed) (faults : Faults) : Env :=
  { marshalPost := samplePostJson
    unmarshalSub := fun s => if s = sampleConfig then some sampleSub else none
    parseURL := fun u => if u = "https://x/feed" then some feed else none
    clock := fun _ => sampleNow
    faults := faults }

/-- The config entry of channel `chan`. -/
def configEntry : Entry := ⟨"chan", "keybase-rss", "config", sampleConfig⟩

/-- A feed item with the given GUID, title and age in hours at `sampleNow`. -/
def sampleItem (guid title : String) (ageHours : Int) : Item :=
  { Title := title
    Description := "d"
    Link := "https://x/post"
    GUID := guid
    Published := "p"
    PublishedParsed := some (sampleNow - ageHours * Hour) }

/-- The feed of the first scenario: one item, GUID `"42"`, one hour old. -/
def feedFresh : Feed := ⟨[sampleItem "42" "A" 1]⟩

/-- The feed of the second scenario: the same item, fifteen days old. -/
def feedOld : Feed := ⟨[sampleItem "42" "A" (15 * 24)]⟩

/-- A feed whose only item carries the GUID `"config"`. -/
def feedConfig : Feed := ⟨[sampleItem "config" "A" 1]⟩

/-- A feed whose only item has no publish date (`PublishedParsed` is nil). -/
def feedUndated : Feed :=
  ⟨[{ Title := "A", Description := "d", Link := "https://x/post", GUID := "42",
      Published := "", PublishedParsed := none }]⟩

/-- An item with an empty GUID and the link of the third scenario. -/
def itemLinked : Item :=
  { Title := "A", Description := "d", Link := "https://x/feed?id=99", GUID := "",
    Published := "p", PublishedParsed := none }

/-- A record already stored under key `"42"` of channel `chan`. -/
def record42 : Entry := ⟨"chan", "keybase-rss", "42", "old"⟩

/-- Every put fails, nothing else does. -/
def putFails : Faults := ⟨false, false, fun _ => false, fun _ => true⟩

/-- Every delete fails, nothing else does. -/
def deleteFails : Faults := ⟨false, false, fun _ => true, fun _ => false⟩

/-- The fetch of the configured URL fails. -/
def envNoFeed : Env :=
  { marshalPost := samplePostJson
    unmarshalSub := fun s => if s = sampleConfig then some sampleSub else none
    parseURL := fun _ => none
    clock := fun _ => sampleNow
    faults := noFaults }

/-! ## Facts about `strings.Index` and `strings.Split` -/

theorem isPrefixOf_iff_take (sep : List Char) :
    ∀ l : List Char, sep.isPrefixOf l = true ↔ l.take sep.length = sep := by
  induction sep with
  | nil => intro l; simp
  | cons a sep ih =>
    intro l
    cases l with
    | nil => simp [List.isPrefixOf]
    | cons b l =>
      simp only [List.isPrefixOf, Bool.and_eq_true, beq_iff_eq, ih, List.length_cons,
        List.take_succ_cons, List.cons.injEq]
      constructor
      · rintro ⟨h1, h2⟩; exact ⟨h1.symm, h2⟩
      · rintro ⟨h1, h2⟩; exact ⟨h1.symm, h2⟩

theorem occursAt_zero (sep s : List Char) :
    occursAt sep s 0 ↔ sep.isPrefixOf s = true := by
  rw [isPrefixOf_iff_take]; simp [occursAt]

theorem occursAt_succ (sep : List Char) (c : Char) (cs : List Char) (q : Nat) :
    occursAt sep (c :: cs) (q + 1) ↔ occursAt sep cs q := by
  simp [occursAt]

theorem occursAt_drop (sep s : List Char) (a q : Nat) :
    occursAt sep (s.drop a) q ↔ occursAt sep s (a + q) := by
  simp [occursAt, List.drop_drop]

theorem not_occursAt_nil (sep : List Char) (hsep : sep ≠ []) (q : Nat) :
    ¬ occursAt sep [] q := by
  intro h
  simp only [occursAt, List.drop_nil, List.take_nil] at h
  exact hsep h.symm

theorem occursAt_length_le (sep s : List Char) (hsep : sep ≠ []) (p : Nat)
    (h : occursAt sep s p) : p + sep.length ≤ s.length := by
  have hL : 0 < sep.length := List.length_pos.2 hsep
  have h1 : ((s.drop p).take sep.length).length = sep.length := by rw [h]
  simp only [List.length_take, List.length_drop] at h1
  omega

theorem stringsIndex_none (sep : List Char) (hsep : sep ≠ []) :
    ∀ s : List Char, stringsIndex sep s = none → ∀ q, ¬ occursAt sep s q := by
  intro s
  induction s with
  | nil => intro _ q; exact not_occursAt_nil sep hsep q
  | cons c cs ih =>
    intro h q
    unfold stringsIndex at h
    split_ifs at h with h0
    cases q with
    | zero => rw [occursAt_zero]; exact h0
    | succ q =>
      rw [occursAt_succ]
      exact ih (by simpa using h) q

theorem stringsIndex_some (sep : List Char) (hsep : sep ≠ []) :
    ∀ (s : List Char) (m : Nat), stringsIndex sep s = some m →
      occursAt sep s m ∧ ∀ q, q < m → ¬ occursAt sep s q := by
  intro s
  induction s with
  | nil => intro m h; simp [stringsIndex, hsep] at h
  | cons c cs ih =>
    intro m h
    unfold stringsIndex at h
    split_ifs at h with h0
    · cases h
      exact ⟨(occursAt_zero _ _).2 h0, fun q hq => absurd hq (Nat.not_lt_zero q)⟩
    · simp only [Option.map_eq_some'] at h
      obtain ⟨m1, hm1, rfl⟩ := h
      obtain ⟨h1, h2⟩ := ih m1 hm1
      refine ⟨(occursAt_succ _ _ _ _).2 h1, ?_⟩
      intro q hq
      cases q with
      | zero => rw [occursAt_zero]; exact h0
      | succ q => rw [occursAt_succ]; exact h2 q (by omega)

/-- Without an occurrence of the separator the split is the string itself. -/
theorem splitLoop_no_occurrence (sep : List Char) (hsep : sep ≠ []) (n : Nat) (s : List Char)
    (h : ∀ q, ¬ occursAt sep s q) : splitLoop sep n s = [s] := by
  cases n with
  | zero => rfl
  | succ n =>
    unfold splitLoop
    cases hi : stringsIndex sep s with
    | none => rfl
    | some m => exact absurd (stringsIndex_some sep hsep s m hi).1 (h m)

/-- The bound on the rounds of `splitLoop` is never what ends the loop: any two
bounds of at least the length of the string give the same pieces. -/
theorem splitLoop_bound_irrelevant (sep : List Char) (hsep : sep ≠ []) :
    ∀ (n m : Nat) (s : List Char), s.length ≤ n → s.length ≤ m →
      splitLoop sep n s = splitLoop sep m s := by
  have hL : 0 < sep.length := List.length_pos.2 hsep
  intro n
  induction n with
  | zero =>
    intro m s hn _
    have hs : s = [] := List.length_eq_zero.1 (Nat.le_zero.1 hn)
    subst hs
    exact (splitLoop_no_occurrence sep hsep m [] (not_occursAt_nil sep hsep)).symm
  | succ n ih =>
    intro m s hn hm
    cases m with
    | zero =>
      have hs : s = [] := List.length_eq_zero.1 (Nat.le_zero.1 hm)
      subst hs
      exact splitLoop_no_occurrence sep hsep (n + 1) [] (not_occursAt_nil sep hsep)
    | succ m =>
      unfold splitLoop
      cases hi : stringsIndex sep s with
      | none => rfl
      | some k =>
        simp only
        rw [ih m (s.drop (k + sep.length)) (by rw [List.length_drop]; omega)
          (by rw [List.length_drop]; omega)]

/-- The bound on the rounds of `replaceLoop` is never what ends the loop. -/
theorem replaceLoop_bound_irrelevant (old new : List Char) (hold : old ≠ []) :
    ∀ (n m : Nat) (s : List Char), s.length ≤ n → s.length ≤ m →
      replaceLoop old new n s = replaceLoop old new m s := by
  have hL : 0 < old.length := List.length_pos.2 hold
  have hnil : ∀ k, replaceLoop old new k [] = [] := by
    intro k
    cases k with
    | zero => rfl
    | succ k => simp [replaceLoop, stringsIndex, hold]
  intro n
  induction n with
  | zero =>
    intro m s hn _
    have hs : s = [] := List.length_eq_zero.1 (Nat.le_zero.1 hn)
    subst hs
    rw [hnil, hnil]
  | succ n ih =>
    intro m s hn hm
    cases m with
    | zero =>
      have hs : s = [] := List.length_eq_zero.1 (Nat.le_zero.1 hm)
      subst hs
      rw [hnil, hnil]
    | succ m =>
      unfold replaceLoop
      cases hi : stringsIndex old s with
      | none => rfl
      | some k =>
        simp only
        rw [ih m (s.drop (k + old.length)) (by rw [List.length_drop]; omega)
          (by rw [List.length_drop]; omega)]

/-- Two occurrences of `"id="` do not overlap. -/
theorem occursAt_idEq_apart (s : List Char) (m p : Nat)
    (hm : occursAt "id=".data s m) (hp : occursAt "id=".data s p) (hlt : m < p) :
    m + 3 ≤ p := by
  by_contra hcon
  have hcases : p = m + 1 ∨ p = m + 2 := by omega
  have hd : ∃ rest, s.drop m = 'i' :: 'd' :: '=' :: rest := by
    have h1 : (s.drop m).take 3 = ['i', 'd', '='] := hm
    match hs : s.drop m, h1 with
    | a :: b :: c :: rest, h1 =>
      simp only [List.take_succ_cons, List.take_zero, List.cons.injEq, and_true] at h1
      exact ⟨rest, by rw [h1.1, h1.2.1, h1.2.2]⟩
    | [], h1 => simp at h1
    | [_], h1 => simp at h1
    | [_, _], h1 => simp at h1
  obtain ⟨rest, hrest⟩ := hd
  rcases hcases with rfl | rfl
  · have h2 : (s.drop (m + 1)).take 3 = ['i', 'd', '='] := hp
    rw [← List.drop_drop, hrest] at h2
    simp at h2
  · have h2 : (s.drop (m + 2)).take 3 = ['i', 'd', '='] := hp
    rw [← List.drop_drop, hrest] at h2
    simp at h2

/-- The last piece of a split is what follows the last occurrence of the
separator, for a separator whose occurrences cannot overlap. -/
theorem splitLoop_getLast? (sep : List Char) (hsep : sep ≠ [])
    (hapart : ∀ (s : List Char) (m p : Nat), occursAt sep s m → occursAt sep s p → m < p →
      m + sep.length ≤ p) :
    ∀ (n : Nat) (s : List Char) (p : Nat), s.length ≤ n → occursAt sep s p →
      (∀ q, occursAt sep s q → q ≤ p) →
      (splitLoop sep n s).getLast? = some (s.drop (p + sep.length)) := by
  have hL : 0 < sep.length := List.length_pos.2 hsep
  intro n
  induction n with
  | zero =>
    intro s p hlen hp _
    have := occursAt_length_le sep s hsep p hp
    omega
  | succ n ih =>
    intro s p hlen hp hlast
    unfold splitLoop
    cases hi : stringsIndex sep s with
    | none => exact absurd hp (stringsIndex_none sep hsep s hi p)
    | some m =>
      obtain ⟨hm, -⟩ := stringsIndex_some sep hsep s m hi
      have hmp : m ≤ p := hlast m hm
      have hmlen := occursAt_length_le sep s hsep m hm
      simp only [List.getLast?_cons]
      rcases Nat.eq_or_lt_of_le hmp with heq | hlt
      · subst heq
        rw [splitLoop_no_occurrence sep hsep n (s.drop (m + sep.length))]
        · simp
        · intro q hq
          rw [occursAt_drop] at hq
          have := hlast _ hq
          omega
      · have hge := hapart s m p hm hp hlt
        have hrec := ih (s.drop (m + sep.length)) (p - (m + sep.length))
          (by rw [List.length_drop]; omega)
          (by rw [occursAt_drop]; rw [show m + sep.length + (p - (m + sep.length)) = p by omega]
              exact hp)
          (by
            intro q hq
            rw [occursAt_drop] at hq
            have := hlast _ hq
            omega)
        rw [hrec, List.drop_drop]
        simp only [Option.getD_some, Option.some.injEq]
        congr 1
        omega

/-! ## Facts about the store -/


theorem kvLookup_remove_self (kv : KVStore) (team ns key : String) :
    kvLookup (kvRemove kv team ns key) team ns key = none := by
  simp only [kvLookup, kvRemove, Option.map_eq_none', List.find?_eq_none]
  intro e he
  simp only [List.mem_filter] at he
  simpa using he.2

theorem kvLookup_remove_ne (kv : KVStore) (team ns key key2 : String) (h : key2 ≠ key) :
    kvLookup (kvRemove kv team ns key) team ns key2 = kvLookup kv team ns key2 := by
  unfold kvLookup kvRemove
  congr 1
  induction kv with
  | nil => rfl
  | cons e rest ih =>
    by_cases h1 : e.isAt team ns key
    · have h2 : e.isAt team ns key2 = false := by
        simp only [Entry.isAt, Bool.and_eq_true, beq_iff_eq] at h1
        simp only [Entry.isAt, h1.1.1, h1.1.2, h1.2, beq_self_eq_true, Bool.true_and, beq_eq_false_iff_ne]
        exact fun hh => h hh.symm
      simp [List.filter_cons, h1, List.find?_cons, h2, ih]
    · simp only [Bool.not_eq_true] at h1
      by_cases h2 : e.isAt team ns key2
      · simp [List.filter_cons, h1, List.find?_cons, h2]
      · simp only [Bool.not_eq_true] at h2
        simp [List.filter_cons, h1, List.find?_cons, h2, ih]

theorem kvLookup_upsert_self (kv : KVStore) (team ns key value : String) :
    kvLookup (⟨team, ns, key, value⟩ :: kvRemove kv team ns key) team ns key = some value := by
  simp [kvLookup, Entry.isAt]

theorem kvLookup_upsert_ne (kv : KVStore) (team ns key value key2 : String) (h : key2 ≠ key) :
    kvLookup (⟨team, ns, key, value⟩ :: kvRemove kv team ns key) team ns key2
      = kvLookup kv team ns key2 := by
  have h1 : (Entry.isAt ⟨team, ns, key, value⟩ team ns key2) = false := by
    simp only [Entry.isAt, beq_self_eq_true, Bool.true_and, beq_eq_false_iff_ne]
    exact fun hh => h hh.symm
  rw [← kvLookup_remove_ne kv team ns key key2 h]
  simp [kvLookup, List.find?_cons, h1]

theorem mem_kvKeyList (kv : KVStore) (team ns key : String) :
    key ∈ kvKeyList kv team ns ↔ kvLookup kv team ns key ≠ none := by
  simp only [kvKeyList, kvLookup, List.mem_map, List.mem_filter, ne_eq, Option.map_eq_none',
    List.find?_eq_none, not_forall, Entry.isAt]
  constructor
  · rintro ⟨e, ⟨he, h1⟩, h2⟩
    refine ⟨e, he, ?_⟩
    simp_all
  · rintro ⟨e, he, h⟩
    simp only [Bool.and_eq_true, beq_iff_eq, Classical.not_not] at h
    exact ⟨e, ⟨he, by simp [h.1.1, h.1.2]⟩, h.2⟩

/-! ## Facts about time -/

theorem timeSince_lt_iff (now t c : Int) (h1 : minDuration < c) (h2 : c ≤ maxDuration) :
    timeSince now t < c ↔ now - t < c := by
  unfold timeSince
  split_ifs <;> constructor <;> intro h <;> omega

/-! ## Facts about one round of the item loop -/

theorem refreshItem_found (env : Env) (channel : String) (keys : List String) (i : Nat)
    (item : Item) (kv : KVStore) (id : String) (t : Int)
    (hid : resolveId item = some id) (ht : item.PublishedParsed = some t) (hk : id ∈ keys) :
    refreshItem env channel keys i item kv =
      some (if timeSince (env.clock (2 * i)) t < retentionWindow then
          (if env.faults.delete i then kv else kvRemove kv channel "keybase-rss" id,
            [Event.delete i id])
        else (kv, [])) := by
  have hc : keys.contains id = true := by simpa using hk
  simp only [refreshItem, hid, ht, mkPost, hc, kvDelete]
  by_cases h1 : timeSince (env.clock (2 * i)) t < retentionWindow <;>
    cases h2 : env.faults.delete i <;> simp [h1]

theorem refreshItem_fresh (env : Env) (channel : String) (keys : List String) (i : Nat)
    (item : Item) (kv : KVStore) (id : String) (t : Int)
    (hid : resolveId item = some id) (ht : item.PublishedParsed = some t) (hk : id ∉ keys)
    (hf : timeSince (env.clock (2 * i + 1)) t < freshnessWindow) :
    refreshItem env channel keys i item kv =
      some (if env.faults.put i then kv
          else ⟨channel, "keybase-rss", id, env.marshalPost (mkPost item id)⟩
            :: kvRemove kv channel "keybase-rss" id,
        [Event.send i channel (notification (mkPost item id)),
          Event.put i id (env.marshalPost (mkPost item id))]) := by
  have hc : keys.contains id = false := by simpa using hk
  simp only [refreshItem, hid, ht, mkPost, hc, kvPut]
  cases h2 : env.faults.put i <;> simp [hf]

theorem refreshItem_stale (env : Env) (channel : String) (keys : List String) (i : Nat)
    (item : Item) (kv : KVStore) (id : String) (t : Int)
    (hid : resolveId item = some id) (ht : item.PublishedParsed = some t) (hk : id ∉ keys)
    (hf : ¬ timeSince (env.clock (2 * i + 1)) t < freshnessWindow) :
    refreshItem env channel keys i item kv = some (kv, []) := by
  have hc : keys.contains id = false := by simpa using hk
  simp only [refreshItem, hid, ht, mkPost, hc]
  simp [hf]

theorem refreshItem_unparsed (env : Env) (channel : String) (keys : List String) (i : Nat)
    (item : Item) (kv : KVStore) (ht : item.PublishedParsed = none) :
    refreshItem env channel keys i item kv = none := by
  unfold refreshItem
  cases resolveId item <;> simp [ht]

/-! ## Facts about `strings.Split` needed by the loop -/

theorem splitLoop_ne_nil (sep : List Char) (n : Nat) (s : List Char) :
    splitLoop sep n s ≠ [] := by
  cases n with
  | zero => simp [splitLoop]
  | succ n =>
    unfold splitLoop
    cases stringsIndex sep s <;> simp

theorem get?_length_pred {α : Type} (l : List α) (h : l ≠ []) :
    l.get? (l.length - 1) = some (l.getLast h) := by
  rw [List.getLast_eq_getElem, List.get?_eq_getElem?]
  exact List.getElem?_eq_getElem _

theorem resolveId_isSome (item : Item) : ∃ id, resolveId item = some id := by
  unfold resolveId
  by_cases hg : item.GUID = ""
  · have hne : stringsSplit item.Link "id=" ≠ [] := by
      have hs : ("id=" : String).data ≠ [] := by decide
      simp [stringsSplit, hs, splitLoop_ne_nil]
    exact ⟨_, by simp only [hg, if_true]; exact get?_length_pred _ hne⟩
  · exact ⟨item.GUID, by simp [hg]⟩

/-! ## One round, all cases -/

theorem refreshItem_cases (env : Env) (channel : String) (keys : List String) (i : Nat)
    (item : Item) (kv : KVStore) :
    ∃ id, resolveId item = some id ∧
      ((item.PublishedParsed = none ∧ refreshItem env channel keys i item kv = none) ∨
       (∃ t, item.PublishedParsed = some t ∧
          ((id ∈ keys ∧ refreshItem env channel keys i item kv =
              some (if timeSince (env.clock (2 * i)) t < retentionWindow then
                  (if env.faults.delete i then kv else kvRemove kv channel "keybase-rss" id,
                    [Event.delete i id])
                else (kv, []))) ∨
           (id ∉ keys ∧ timeSince (env.clock (2 * i + 1)) t < freshnessWindow ∧
              refreshItem env channel keys i item kv =
                some (if env.faults.put i then kv
                    else ⟨channel, "keybase-rss", id, env.marshalPost (mkPost item id)⟩
                      :: kvRemove kv channel "keybase-rss" id,
                  [Event.send i channel (notification (mkPost item id)),
                    Event.put i id (env.marshalPost (mkPost item id))])) ∨
           (id ∉ keys ∧ ¬ timeSince (env.clock (2 * i + 1)) t < freshnessWindow ∧
              refreshItem env channel keys i item kv = some (kv, []))))) := by
  obtain ⟨id, hid⟩ := resolveId_isSome item
  refine ⟨id, hid, ?_⟩
  cases ht : item.PublishedParsed with
  | none => exact Or.inl ⟨rfl, refreshItem_unparsed env channel keys i item kv ht⟩
  | some t =>
    refine Or.inr ⟨t, rfl, ?_⟩
    by_cases hk : id ∈ keys
    · exact Or.inl ⟨hk, refreshItem_found env channel keys i item kv id t hid ht hk⟩
    · by_cases hf : timeSince (env.clock (2 * i + 1)) t < freshnessWindow
      · exact Or.inr (Or.inl ⟨hk, hf, refreshItem_fresh env channel keys i item kv id t hid ht hk hf⟩)
      · exact Or.inr (Or.inr ⟨hk, hf, refreshItem_stale env channel keys i item kv id t hid ht hk hf⟩)

/-- Every call a round issues is tagged with the round's position. -/
theorem refreshItem_tags (env : Env) (channel : String) (keys : List String) (i : Nat)
    (item : Item) (kv kv1 : KVStore) (evs : List Event)
    (h : refreshItem env channel keys i item kv = some (kv1, evs)) :
    ∀ e ∈ evs, e.item = i := by
  obtain ⟨id, -, hc⟩ := refreshItem_cases env channel keys i item kv
  rcases hc with ⟨-, h0⟩ | ⟨t, -, ⟨-, h1⟩ | ⟨-, -, h1⟩ | ⟨-, -, h1⟩⟩
  · rw [h0] at h; cases h
  · rw [h1] at h
    split_ifs at h <;> cases h <;> simp [Event.item]
  · rw [h1] at h; cases h; simp [Event.item]
  · rw [h1] at h; cases h; simp

/-- A round sends or puts only for an identifier that is not among the listed
keys and only while the item is fresh. -/
theorem refreshItem_send_put (env : Env) (channel : String) (keys : List String) (i : Nat)
    (item : Item) (kv kv1 : KVStore) (evs : List Event) (id : String)
    (hid : resolveId item = some id)
    (h : refreshItem env channel keys i item kv = some (kv1, evs))
    (e : Event) (he : e ∈ evs) (hsp : e.isSendFor i = true ∨ e.isPutFor i = true) :
    id ∉ keys ∧ ∃ t, item.PublishedParsed = some t ∧
      timeSince (env.clock (2 * i + 1)) t < freshnessWindow := by
  obtain ⟨id2, hid2, hc⟩ := refreshItem_cases env channel keys i item kv
  rw [hid] at hid2; cases hid2
  rcases hc with ⟨-, h0⟩ | ⟨t, ht, ⟨-, h1⟩ | ⟨hk, hf, -⟩ | ⟨-, -, h1⟩⟩
  · rw [h0] at h; cases h
  · rw [h1] at h
    split_ifs at h <;> cases h <;> simp at he <;> subst he <;>
      simp [Event.isSendFor, Event.isPutFor] at hsp
  · exact ⟨hk, t, ht, hf⟩
  · rw [h1] at h; cases h; simp at he

/-- A round leaves every key other than its own identifier alone. -/
theorem refreshItem_lookup_other (env : Env) (channel : String) (keys : List String) (i : Nat)
    (item : Item) (kv kv1 : KVStore) (evs : List Event) (k : String)
    (h : refreshItem env channel keys i item kv = some (kv1, evs))
    (hne : resolveId item ≠ some k) :
    kvLookup kv1 channel "keybase-rss" k = kvLookup kv channel "keybase-rss" k := by
  obtain ⟨id, hid, hc⟩ := refreshItem_cases env channel keys i item kv
  have hk : k ≠ id := fun hh => hne (hh ▸ hid)
  rcases hc with ⟨-, h0⟩ | ⟨t, -, ⟨-, h1⟩ | ⟨-, -, h1⟩ | ⟨-, -, h1⟩⟩
  · rw [h0] at h; cases h
  · rw [h1] at h
    split_ifs at h <;> cases h <;> first | rfl | exact kvLookup_remove_ne _ _ _ _ _ hk
  · rw [h1] at h
    split_ifs at h <;> cases h <;> first | rfl | exact kvLookup_upsert_ne _ _ _ _ _ _ hk
  · rw [h1] at h; cases h; rfl

/-- A round never brings back a listed key that is absent. -/
theorem refreshItem_lookup_none (env : Env) (channel : String) (keys : List String) (i : Nat)
    (item : Item) (kv kv1 : KVStore) (evs : List Event) (k : String)
    (h : refreshItem env channel keys i item kv = some (kv1, evs))
    (hk : k ∈ keys) (hn : kvLookup kv channel "keybase-rss" k = none) :
    kvLookup kv1 channel "keybase-rss" k = none := by
  by_cases hne : resolveId item = some k
  · obtain ⟨id, hid, hc⟩ := refreshItem_cases env channel keys i item kv
    rw [hne] at hid; cases hid
    rcases hc with ⟨-, h0⟩ | ⟨t, -, ⟨-, h1⟩ | ⟨hk2, -, -⟩ | ⟨hk2, -, -⟩⟩
    · rw [h0] at h; cases h
    · rw [h1] at h
      split_ifs at h <;> cases h <;> first | exact hn | exact kvLookup_remove_self _ _ _ _
    · exact absurd hk hk2
    · exact absurd hk hk2
  · rw [refreshItem_lookup_other env channel keys i item kv kv1 evs k h hne]; exact hn

/-! ## The item loop -/

theorem refreshLoop_cons_some (env : Env) (channel : String) (keys : List String) (n : Nat)
    (item : Item) (rest : List Item) (kv kv1 : KVStore) (evs : List Event)
    (h : refreshItem env channel keys n item kv = some (kv1, evs)) :
    refreshLoop env channel keys n (item :: rest) kv =
      ⟨(refreshLoop env channel keys (n + 1) rest kv1).store,
        evs ++ (refreshLoop env channel keys (n + 1) rest kv1).log,
        (refreshLoop env channel keys (n + 1) rest kv1).outcome⟩ := by
  simp [refreshLoop, h]

theorem refreshLoop_cons_none (env : Env) (channel : String) (keys : List String) (n : Nat)
    (item : Item) (rest : List Item) (kv : KVStore)
    (h : refreshItem env channel keys n item kv = none) :
    refreshLoop env channel keys n (item :: rest) kv = ⟨kv, [], .panicked⟩ := by
  simp [refreshLoop, h]

/-- The loop started at position `n` logs only calls tagged `n` or later. -/
theorem refreshLoop_tags (env : Env) (channel : String) (keys : List String) :
    ∀ (items : List Item) (n : Nat) (kv : KVStore),
      ∀ e ∈ (refreshLoop env channel keys n items kv).log, n ≤ e.item := by
  intro items
  induction items with
  | nil => intro n kv e he; simp [refreshLoop] at he
  | cons item rest ih =>
    intro n kv e he
    cases h : refreshItem env channel keys n item kv with
    | none => rw [refreshLoop_cons_none _ _ _ _ _ _ _ h] at he; simp at he
    | some p =>
      obtain ⟨kv1, evs⟩ := p
      rw [refreshLoop_cons_some _ _ _ _ _ _ _ _ _ h] at he
      rcases List.mem_append.1 he with he | he
      · exact le_of_eq (refreshItem_tags env channel keys n item kv kv1 evs h e he).symm
      · exact Nat.le_of_succ_le (ih (n + 1) kv1 e he)

/-- The loop leaves alone every key no item resolves to. -/
theorem refreshLoop_lookup_other (env : Env) (channel : String) (keys : List String) (k : String) :
    ∀ (items : List Item) (n : Nat) (kv : KVStore),
      (∀ it ∈ items, resolveId it ≠ some k) →
      kvLookup (refreshLoop env channel keys n items kv).store channel "keybase-rss" k
        = kvLookup kv channel "keybase-rss" k := by
  intro items
  induction items with
  | nil => intro n kv _; simp [refreshLoop]
  | cons item rest ih =>
    intro n kv hne
    cases h : refreshItem env channel keys n item kv with
    | none => rw [refreshLoop_cons_none _ _ _ _ _ _ _ h]
    | some p =>
      obtain ⟨kv1, evs⟩ := p
      rw [refreshLoop_cons_some _ _ _ _ _ _ _ _ _ h]
      simp only
      rw [ih (n + 1) kv1 (fun it hit => hne it (List.mem_cons_of_mem _ hit))]
      exact refreshItem_lookup_other env channel keys n item kv kv1 evs k h
        (hne item (List.mem_cons_self _ _))

/-- The loop never brings back a listed key that is absent. -/
theorem refreshLoop_lookup_none (env : Env) (channel : String) (keys : List String) (k : String)
    (hk : k ∈ keys) :
    ∀ (items : List Item) (n : Nat) (kv : KVStore),
      kvLookup kv channel "keybase-rss" k = none →
      kvLookup (refreshLoop env channel keys n items kv).store channel "keybase-rss" k = none := by
  intro items
  induction items with
  | nil => intro n kv hn; simpa [refreshLoop] using hn
  | cons item rest ih =>
    intro n kv hn
    cases h : refreshItem env channel keys n item kv with
    | none => rw [refreshLoop_cons_none _ _ _ _ _ _ _ h]; exact hn
    | some p =>
      obtain ⟨kv1, evs⟩ := p
      rw [refreshLoop_cons_some _ _ _ _ _ _ _ _ _ h]
      exact ih (n + 1) kv1 (refreshItem_lookup_none env channel keys n item kv kv1 evs k h hk hn)

/-- Sends and puts tagged with a position come from a fresh item at that
position whose identifier is not among the listed keys. -/
theorem refreshLoop_send_put (env : Env) (channel : String) (keys : List String) :
    ∀ (items : List Item) (n i : Nat) (kv : KVStore) (item : Item) (id : String),
      items[i]? = some item → resolveId item = some id →
      ∀ e ∈ (refreshLoop env channel keys n items kv).log,
        e.isSendFor (n + i) = true ∨ e.isPutFor (n + i) = true →
        id ∉ keys ∧ ∃ t, item.PublishedParsed = some t ∧
          timeSince (env.clock (2 * (n + i) + 1)) t < freshnessWindow := by
  intro items
  induction items with
  | nil => intro n i kv item id hi; simp at hi
  | cons hd rest ih =>
    intro n i kv item id hi hid e he hsp
    have htag : e.item = n + i := by
      cases e <;> simp_all [Event.isSendFor, Event.isPutFor, Event.item]
    cases h : refreshItem env channel keys n hd kv with
    | none => rw [refreshLoop_cons_none _ _ _ _ _ _ _ h] at he; simp at he
    | some p =>
      obtain ⟨kv1, evs⟩ := p
      rw [refreshLoop_cons_some _ _ _ _ _ _ _ _ _ h] at he
      cases i with
      | zero =>
        simp only [List.getElem?_cons_zero, Option.some.injEq] at hi
        subst hi
        rcases List.mem_append.1 he with he | he
        · exact refreshItem_send_put env channel keys n hd kv kv1 evs id hid h e he hsp
        · have := refreshLoop_tags env channel keys rest (n + 1) kv1 e he
          omega
      | succ j =>
        simp only [List.getElem?_cons_succ] at hi
        rcases List.mem_append.1 he with he | he
        · have := refreshItem_tags env channel keys n hd kv kv1 evs h e he
          omega
        · have hsp2 : e.isSendFor (n + 1 + j) = true ∨ e.isPutFor (n + 1 + j) = true := by
            rw [show n + 1 + j = n + (j + 1) by omega]; exact hsp
          have := ih (n + 1) j kv1 item id hi hid e he hsp2
          rw [show n + 1 + j = n + (j + 1) by omega] at this
          exact this

/-- Running the loop up to position `i`, when no item before `i` lacks a
parsed publish time: the loop continues from `i` with some store `kvi`. -/
theorem refreshLoop_split (env : Env) (channel : String) (keys : List String) :
    ∀ (i n : Nat) (items : List Item) (kv : KVStore),
      i ≤ items.length →
      (∀ j it, j < i → items[j]? = some it → it.PublishedParsed ≠ none) →
      ∃ kvi pre,
        refreshLoop env channel keys n items kv =
          ⟨(refreshLoop env channel keys (n + i) (items.drop i) kvi).store,
            pre ++ (refreshLoop env channel keys (n + i) (items.drop i) kvi).log,
            (refreshLoop env channel keys (n + i) (items.drop i) kvi).outcome⟩ ∧
        (∀ e ∈ pre, e.item < n + i) ∧
        (∀ k, k ∈ keys → kvLookup kv channel "keybase-rss" k = none →
          kvLookup kvi channel "keybase-rss" k = none) ∧
        (∀ k, (∀ j it, j < i → items[j]? = some it → resolveId it ≠ some k) →
          kvLookup kvi channel "keybase-rss" k = kvLookup kv channel "keybase-rss" k) := by
  intro i
  induction i with
  | zero =>
    intro n items kv _ _
    exact ⟨kv, [], by simp, by simp, fun _ _ h => h, fun _ _ => rfl⟩
  | succ i ih =>
    intro n items kv hlen hp
    cases items with
    | nil => simp at hlen
    | cons hd rest =>
      have hhd : hd.PublishedParsed ≠ none := hp 0 hd (Nat.succ_pos i) (by simp)
      obtain ⟨id, hid, hc⟩ := refreshItem_cases env channel keys n hd kv
      cases h : refreshItem env channel keys n hd kv with
      | none =>
        exfalso
        rcases hc with ⟨h0, -⟩ | ⟨t, ht, hc⟩
        · exact hhd h0
        · rcases hc with ⟨-, h1⟩ | ⟨-, -, h1⟩ | ⟨-, -, h1⟩ <;> rw [h1] at h <;> cases h
      | some p =>
        obtain ⟨kv1, evs⟩ := p
        obtain ⟨kvi, pre, heq, htags, hnone, hother⟩ := ih (n + 1) rest kv1
          (by simpa using hlen)
          (fun j it hj hit => hp (j + 1) it (by omega) (by simpa using hit))
        refine ⟨kvi, evs ++ pre, ?_, ?_, ?_, ?_⟩
        · rw [refreshLoop_cons_some _ _ _ _ _ _ _ _ _ h, heq]
          simp only [List.drop_succ_cons, List.append_assoc]
          rw [show n + 1 + i = n + (i + 1) by omega]
        · intro e he
          rcases List.mem_append.1 he with he | he
          · have := refreshItem_tags env channel keys n hd kv kv1 evs h e he
            omega
          · have := htags e he
            omega
        · intro k hk hn
          exact hnone k hk (refreshItem_lookup_none env channel keys n hd kv kv1 evs k h hk hn)
        · intro k hk
          rw [hother k (fun j it hj hit => hk (j + 1) it (by omega) (by simpa using hit))]
          exact refreshItem_lookup_other env channel keys n hd kv kv1 evs k h
            (hk 0 hd (Nat.succ_pos i) (by simp))

theorem refresh_of_reaches (env : Env) (channel : String) (kv : KVStore) (feed : Feed)
    (h : ReachesLoop env channel kv feed) :
    refresh env channel kv
      = refreshLoop env channel (kvKeyList kv channel "keybase-rss") 0 feed.Items kv := by
  obtain ⟨hg, hk, cfg, sub, hc, hu, hf⟩ := h
  simp [refresh, kvGet, kvKeys, hg, hk, hc, hu, hf]

theorem Event.item_of_isSendFor (e : Event) (i : Nat) (h : e.isSendFor i = true) : e.item = i := by
  cases e <;> simp_all [Event.isSendFor, Event.item]

theorem drop_eq_cons_of_getElem? {α : Type} (l : List α) (i : Nat) (a : α)
    (h : l[i]? = some a) : l.drop i = a :: l.drop (i + 1) := by
  obtain ⟨hlt, rfl⟩ := List.getElem?_eq_some.1 h
  exact List.drop_eq_getElem_cons hlt

/-- A fresh item whose identifier is not listed, reached without a panic, is
notified exactly once. -/
theorem refreshLoop_notifies (env : Env) (channel : String) (keys : List String)
    (n i : Nat) (items : List Item) (kv : KVStore) (item : Item) (id : String) (t : Int)
    (hi : items[i]? = some item) (hid : resolveId item = some id)
    (ht : item.PublishedParsed = some t)
    (hp : ∀ j it, j < i → items[j]? = some it → it.PublishedParsed ≠ none)
    (hk : id ∉ keys)
    (hf : timeSince (env.clock (2 * (n + i) + 1)) t < freshnessWindow) :
    (refreshLoop env channel keys n items kv).log.filter (Event.isSendFor (n + i))
      = [Event.send (n + i) channel (notification (mkPost item id))] := by
  have hlen : i ≤ items.length := le_of_lt (List.getElem?_eq_some.1 hi).1
  obtain ⟨kvi, pre, heq, htags, -, -⟩ := refreshLoop_split env channel keys i n items kv hlen hp
  rw [heq, drop_eq_cons_of_getElem? items i item hi,
    refreshLoop_cons_some _ _ _ _ _ _ _ _ _
      (refreshItem_fresh env channel keys (n + i) item kvi id t hid ht hk hf)]
  simp only [List.filter_append]
  have h1 : pre.filter (Event.isSendFor (n + i)) = [] := by
    rw [List.filter_eq_nil_iff]
    intro e he hs
    have := htags e he
    have := Event.item_of_isSendFor e _ hs
    omega
  have h2 : (refreshLoop env channel keys (n + i + 1) (items.drop (i + 1))
      (if env.faults.put (n + i) then kvi
        else ⟨channel, "keybase-rss", id, env.marshalPost (mkPost item id)⟩
          :: kvRemove kvi channel "keybase-rss" id)).log.filter (Event.isSendFor (n + i)) = [] := by
    rw [List.filter_eq_nil_iff]
    intro e he hs
    have := refreshLoop_tags env channel keys _ _ _ e he
    have := Event.item_of_isSendFor e _ hs
    omega
  rw [h1, h2]
  simp [List.filter_cons, Event.isSendFor]

/-- A fresh item whose identifier is not listed, reached without a panic, whose
put succeeds and whose identifier no later item shares, is in the store after
the loop. -/
theorem refreshLoop_stores (env : Env) (channel : String) (keys : List String)
    (n i : Nat) (items : List Item) (kv : KVStore) (item : Item) (id : String) (t : Int)
    (hi : items[i]? = some item) (hid : resolveId item = some id)
    (ht : item.PublishedParsed = some t)
    (hp : ∀ j it, j < i → items[j]? = some it → it.PublishedParsed ≠ none)
    (hk : id ∉ keys)
    (hf : timeSince (env.clock (2 * (n + i) + 1)) t < freshnessWindow)
    (hput : env.faults.put (n + i) = false)
    (hlast : ∀ j it, i < j → items[j]? = some it → resolveId it ≠ some id) :
    kvLookup (refreshLoop env channel keys n items kv).store channel "keybase-rss" id
      = some (env.marshalPost (mkPost item id)) := by
  have hlen : i ≤ items.length := le_of_lt (List.getElem?_eq_some.1 hi).1
  obtain ⟨kvi, pre, heq, -, -, -⟩ := refreshLoop_split env channel keys i n items kv hlen hp
  have hround : refreshItem env channel keys (n + i) item kvi
      = some (⟨channel, "keybase-rss", id, env.marshalPost (mkPost item id)⟩
            :: kvRemove kvi channel "keybase-rss" id,
          [Event.send (n + i) channel (notification (mkPost item id)),
            Event.put (n + i) id (env.marshalPost (mkPost item id))]) := by
    rw [refreshItem_fresh env channel keys (n + i) item kvi id t hid ht hk hf]
    simp [hput]
  rw [heq, drop_eq_cons_of_getElem? items i item hi,
    refreshLoop_cons_some _ _ _ _ _ _ _ _ _ hround]
  simp only
  rw [refreshLoop_lookup_other]
  · exact kvLookup_upsert_self _ _ _ _ _
  · intro it hit
    obtain ⟨j, hj⟩ := List.mem_iff_getElem?.1 hit
    rw [List.getElem?_drop] at hj
    exact hlast (i + 1 + j) it (by omega) hj

/-- A listed identifier whose item is inside the retention window, is reached
without a panic and whose delete succeeds is absent after the loop. -/
theorem refreshLoop_deletes (env : Env) (channel : String) (keys : List String)
    (n i : Nat) (items : List Item) (kv : KVStore) (item : Item) (id : String) (t : Int)
    (hi : items[i]? = some item) (hid : resolveId item = some id)
    (ht : item.PublishedParsed = some t)
    (hp : ∀ j it, j < i → items[j]? = some it → it.PublishedParsed ≠ none)
    (hk : id ∈ keys)
    (hr : timeSince (env.clock (2 * (n + i))) t < retentionWindow)
    (hdel : env.faults.delete (n + i) = false) :
    kvLookup (refreshLoop env channel keys n items kv).store channel "keybase-rss" id = none := by
  have hlen : i ≤ items.length := le_of_lt (List.getElem?_eq_some.1 hi).1
  obtain ⟨kvi, pre, heq, -, -, -⟩ := refreshLoop_split env channel keys i n items kv hlen hp
  have hround : refreshItem env channel keys (n + i) item kvi
      = some (kvRemove kvi channel "keybase-rss" id, [Event.delete (n + i) id]) := by
    rw [refreshItem_found env channel keys (n + i) item kvi id t hid ht hk]
    simp [hr, hdel]
  rw [heq, drop_eq_cons_of_getElem? items i item hi,
    refreshLoop_cons_some _ _ _ _ _ _ _ _ _ hround]
  exact refreshLoop_lookup_none env channel keys id hk _ _ _ (kvLookup_remove_self _ _ _ _)

/-! ## `unsubscribe` -/

theorem unsubscribeLoop_lookup (faults : Faults) (channel : String)
    (hdel : ∀ i, faults.delete i = false) (k : String) :
    ∀ (keys : List String) (n : Nat) (kv : KVStore),
      kvLookup (unsubscribeLoop faults channel n keys kv) channel "keybase-rss" k
        = if k ∈ keys then none else kvLookup kv channel "keybase-rss" k := by
  intro keys
  induction keys with
  | nil => intro n kv; simp [unsubscribeLoop]
  | cons key rest ih =>
    intro n kv
    simp only [unsubscribeLoop, kvDelete, hdel, Bool.false_eq_true, if_false]
    rw [ih]
    by_cases hk : k = key
    · subst hk
      simp [kvLookup_remove_self]
    · simp [hk, kvLookup_remove_ne _ _ _ _ _ hk]

theorem unsubscribe_lookup (faults : Faults) (channel : String) (kv : KVStore)
    (hkeys : faults.keys = false) (hdel : ∀ i, faults.delete i = false) (k : String) :
    kvLookup (unsubscribe faults channel kv) channel "keybase-rss" k = none := by
  simp only [unsubscribe, kvKeys, hkeys, Bool.false_eq_true, if_false]
  rw [unsubscribeLoop_lookup faults channel hdel]
  split_ifs with h
  · rfl
  · by_contra hne
    exact h ((mem_kvKeyList kv channel "keybase-rss" k).2 hne)

/-! ## The claims -/

/-- C1, as stated, fails: with the config record present, the fetch succeeding
and a one-hour-old item `"42"` that is not among the listed keys, a failing put
leaves the store without a record under `"42"` after the call. -/
theorem refresh_fresh_put_fails_not_stored :
    ReachesLoop (sampleEnv feedFresh putFails) "chan" [configEntry] feedFresh ∧
      feedFresh.Items[0]? = some (sampleItem "42" "A" 1) ∧
      resolveId (sampleItem "42" "A" 1) = some "42" ∧
      timeSince ((sampleEnv feedFresh putFails).clock 1) (sampleNow - 1 * Hour) < freshnessWindow ∧
      "42" ∉ kvKeyList [configEntry] "chan" "keybase-rss" ∧
      kvLookup (refresh (sampleEnv feedFresh putFails) "chan" [configEntry]).store
        "chan" "keybase-rss" "42" = none :=
  ⟨⟨rfl, rfl, sampleConfig, sampleSub, by decide, by decide, by decide⟩,
    by decide, by decide, by decide, by decide, by decide⟩

/-- C1, amended: when refresh reaches the item loop and no item before position
`i` lacks a parsed publish time, an item at position `i` whose age at the
notification test is under 24 hours and whose identifier is not among the keys
listed at the start is notified exactly once; if moreover its put succeeds and
no later item of the feed resolves to the same identifier, the store after the
call holds under that identifier the JSON of the post built from the item. -/
theorem refresh_fresh_item_notified_and_stored (env : Env) (channel : String) (kv : KVStore)
    (feed : Feed) (i : Nat) (item : Item) (id : String) (t : Int)
    (hreach : ReachesLoop env channel kv feed)
    (hi : feed.Items[i]? = some item) (hid : resolveId item = some id)
    (ht : item.PublishedParsed = some t)
    (hp : ∀ j it, j < i → feed.Items[j]? = some it → it.PublishedParsed ≠ none)
    (hfresh : timeSince (env.clock (2 * i + 1)) t < freshnessWindow)
    (hk : id ∉ kvKeyList kv channel "keybase-rss") :
    (refresh env channel kv).log.filter (Event.isSendFor i)
        = [Event.send i channel (notification (mkPost item id))] ∧
      (env.faults.put i = false →
        (∀ j it, i < j → feed.Items[j]? = some it → resolveId it ≠ some id) →
        kvLookup (refresh env channel kv).store channel "keybase-rss" id
          = some (env.marshalPost (mkPost item id))) := by
  rw [refresh_of_reaches env channel kv feed hreach]
  constructor
  · have h := refreshLoop_notifies env channel _ 0 i feed.Items kv item id t hi hid ht hp hk
      (by simpa using hfresh)
    simpa using h
  · intro hput hlast
    exact refreshLoop_stores env channel _ 0 i feed.Items kv item id t hi hid ht hp hk
      (by simpa using hfresh) (by simpa using hput) hlast

/-- Witness for C1 (amended): the first concrete scenario of the spec.  One
item with GUID `"42"`, one hour old, no existing item keys: one notification
and one stored record keyed `"42"`. -/
theorem refresh_fresh_item_notified_and_stored_witness :
    (refresh (sampleEnv feedFresh noFaults) "chan" [configEntry]).log.filter (Event.isSendFor 0)
        = [Event.send 0 "chan" (notification (mkPost (sampleItem "42" "A" 1) "42"))] ∧
      kvLookup (refresh (sampleEnv feedFresh noFaults) "chan" [configEntry]).store
          "chan" "keybase-rss" "42"
        = some (samplePostJson (mkPost (sampleItem "42" "A" 1) "42")) :=
  have h := refresh_fresh_item_notified_and_stored (sampleEnv feedFresh noFaults) "chan"
    [configEntry] feedFresh 0 (sampleItem "42" "A" 1) "42" (sampleNow - 1 * Hour)
    ⟨rfl, rfl, sampleConfig, sampleSub, by decide, by decide, by decide⟩
    (by decide) (by decide) rfl (fun j _ hj => absurd hj (Nat.not_lt_zero j)) (by decide)
    (by decide)
  ⟨h.1, h.2 rfl (fun j it hj hjt => by
    obtain ⟨k, rfl⟩ := Nat.exists_eq_succ_of_ne_zero (Nat.pos_iff_ne_zero.1 hj)
    simp [feedFresh] at hjt)⟩

/-- C2, as stated, fails: refresh reaches the item loop, the identifier `"42"`
of a one-hour-old item is among the listed keys, the delete fails, and the
record is still in the store at the end of the call. -/
theorem refresh_delete_fails_record_stays :
    ReachesLoop (sampleEnv feedFresh deleteFails) "chan" [configEntry, record42] feedFresh ∧
      feedFresh.Items[0]? = some (sampleItem "42" "A" 1) ∧
      resolveId (sampleItem "42" "A" 1) = some "42" ∧
      "42" ∈ kvKeyList [configEntry, record42] "chan" "keybase-rss" ∧
      timeSince ((sampleEnv feedFresh deleteFails).clock 0) (sampleNow - 1 * Hour)
        < retentionWindow ∧
      kvLookup (refresh (sampleEnv feedFresh deleteFails) "chan" [configEntry, record42]).store
        "chan" "keybase-rss" "42" = some "old" :=
  ⟨⟨rfl, rfl, sampleConfig, sampleSub, by decide, by decide, by decide⟩,
    by decide, by decide, by decide, by decide, by decide⟩

/-- C2, amended: when refresh reaches the item loop and no item before position
`i` lacks a parsed publish time, an item at position `i` whose identifier is
among the keys listed at the start, whose age at the retention test is under
10 days and whose delete succeeds has no record under that identifier at the
end of the call. -/
theorem refresh_listed_item_deleted (env : Env) (channel : String) (kv : KVStore)
    (feed : Feed) (i : Nat) (item : Item) (id : String) (t : Int)
    (hreach : ReachesLoop env channel kv feed)
    (hi : feed.Items[i]? = some item) (hid : resolveId item = some id)
    (ht : item.PublishedParsed = some t)
    (hp : ∀ j it, j < i → feed.Items[j]? = some it → it.PublishedParsed ≠ none)
    (hk : id ∈ kvKeyList kv channel "keybase-rss")
    (hr : timeSince (env.clock (2 * i)) t < retentionWindow)
    (hdel : env.faults.delete i = false) :
    kvLookup (refresh env channel kv).store channel "keybase-rss" id = none := by
  rw [refresh_of_reaches env channel kv feed hreach]
  exact refreshLoop_deletes env channel _ 0 i feed.Items kv item id t hi hid ht hp hk
    (by simpa using hr) (by simpa using hdel)

/-- Witness for C2 (amended): the record `"42"` of a one-hour-old item is gone
after the call when the delete succeeds. -/
theorem refresh_listed_item_deleted_witness :
    "42" ∈ kvKeyList [configEntry, record42] "chan" "keybase-rss" ∧
      kvLookup (refresh (sampleEnv feedFresh noFaults) "chan" [configEntry, record42]).store
        "chan" "keybase-rss" "42" = none :=
  ⟨by decide,
    refresh_listed_item_deleted (sampleEnv feedFresh noFaults) "chan" [configEntry, record42]
      feedFresh 0 (sampleItem "42" "A" 1) "42" (sampleNow - 1 * Hour)
      ⟨rfl, rfl, sampleConfig, sampleSub, by decide, by decide, by decide⟩
      (by decide) (by decide) rfl (fun j _ hj => absurd hj (Nat.not_lt_zero j)) (by decide)
      (by decide) rfl⟩

theorem resolveId_empty_guid (item : Item) (hg : item.GUID = "") :
    resolveId item
      = ((splitLoop "id=".data item.Link.data.length item.Link.data).getLast?).map String.mk := by
  have hs : ("id=" : String).data ≠ [] := by decide
  simp only [resolveId, hg, if_true, stringsSplit, hs, if_false]
  rw [List.get?_eq_getElem?, ← List.getLast?_eq_getElem?, List.getLast?_map]

/-- C3: an item with a non-empty GUID resolves to the GUID; an item with an
empty GUID whose link contains `"id="` resolves to the part of the link behind
the last occurrence of `"id="` (position `p`, three characters long); without
any `"id="` in the link it resolves to the whole link. -/
theorem resolveId_spec (item : Item) :
    (item.GUID ≠ "" → resolveId item = some item.GUID) ∧
      (item.GUID = "" → ∀ p, occursAt "id=".data item.Link.data p →
        (∀ q, occursAt "id=".data item.Link.data q → q ≤ p) →
        resolveId item = some (String.mk (item.Link.data.drop (p + 3)))) ∧
      (item.GUID = "" → (∀ q, ¬ occursAt "id=".data item.Link.data q) →
        resolveId item = some item.Link) := by
  have hs : ("id=" : String).data ≠ [] := by decide
  refine ⟨?_, ?_, ?_⟩
  · intro hg
    simp [resolveId, hg]
  · intro hg p hp hlast
    rw [resolveId_empty_guid item hg,
      splitLoop_getLast? "id=".data hs occursAt_idEq_apart _ _ p (le_refl _) hp hlast]
    rfl
  · intro hg hnone
    rw [resolveId_empty_guid item hg, splitLoop_no_occurrence "id=".data hs _ _ hnone]
    rfl

/-- Witness for C3: the third concrete scenario of the spec.  The link
`"https://x/feed?id=99"` with an empty GUID resolves to `"99"`; the last
`"id="` of the link is at position 15. -/
theorem resolveId_spec_witness :
    itemLinked.GUID = "" ∧ occursAt "id=".data itemLinked.Link.data 15 ∧
      resolveId itemLinked = some "99" :=
  ⟨rfl, by decide,
    (resolveId_spec itemLinked).2.1 rfl 15 (by decide) (fun q hq => by
      by_contra hcon
      have hlen := occursAt_length_le "id=".data itemLinked.Link.data (by decide) q hq
      have hq20 : q + 3 ≤ 20 := hlen
      have h16 : 16 ≤ q := by omega
      have h17 : q ≤ 17 := by omega
      interval_cases q <;> revert hq <;> decide)⟩

/-- C5, on the code: with a config record and a record `"42"` in the store and
a feed of one item with GUID `"42"` published 15 days ago, refresh issues no
call at all: no notification, but also no delete, and the record `"42"` is
still in the store afterwards. -/
theorem refresh_old_record_kept :
    refresh (sampleEnv feedOld noFaults) "chan" [configEntry, record42]
        = ⟨[configEntry, record42], [], .completed⟩ ∧
      kvLookup (refresh (sampleEnv feedOld noFaults) "chan" [configEntry, record42]).store
        "chan" "keybase-rss" "42" = some "old" := by
  decide

/-- C6: when refresh reaches the item loop, an item at position `i` that is
stale (its age at the notification test is 24 hours or more) or whose
identifier is among the keys listed at the start gets no notification and no
put: the log of the call holds no send and no put issued for position `i`. -/
theorem refresh_stale_or_listed_no_send_no_put (env : Env) (channel : String) (kv : KVStore)
    (feed : Feed) (i : Nat) (item : Item) (id : String)
    (hreach : ReachesLoop env channel kv feed)
    (hi : feed.Items[i]? = some item) (hid : resolveId item = some id)
    (h : (∃ t, item.PublishedParsed = some t ∧
            freshnessWindow ≤ timeSince (env.clock (2 * i + 1)) t) ∨
          id ∈ kvKeyList kv channel "keybase-rss") :
    ∀ e ∈ (refresh env channel kv).log, e.isSendFor i = false ∧ e.isPutFor i = false := by
  rw [refresh_of_reaches env channel kv feed hreach]
  intro e he
  by_contra hcon
  have hsp : e.isSendFor (0 + i) = true ∨ e.isPutFor (0 + i) = true := by
    rw [Nat.zero_add]
    by_cases h1 : e.isSendFor i = true
    · exact Or.inl h1
    · right
      by_contra h2
      exact hcon ⟨by simpa using h1, by simpa using h2⟩
  obtain ⟨hk, t, ht, hf⟩ := refreshLoop_send_put env channel _ feed.Items 0 i kv item id hi hid e he hsp
  rw [Nat.zero_add] at hf
  rcases h with ⟨t2, ht2, hstale⟩ | hlisted
  · rw [ht] at ht2; cases ht2
    exact absurd hf (not_lt.2 hstale)
  · exact hk hlisted

/-- Witness for C6: the fifteen-day-old item `"42"` with an existing record is
both stale and listed; the call logs no send and no put for it. -/
theorem refresh_stale_or_listed_no_send_no_put_witness :
    "42" ∈ kvKeyList [configEntry, record42] "chan" "keybase-rss" ∧
      ∀ e ∈ (refresh (sampleEnv feedOld noFaults) "chan" [configEntry, record42]).log,
        e.isSendFor 0 = false ∧ e.isPutFor 0 = false :=
  ⟨by decide,
    refresh_stale_or_listed_no_send_no_put (sampleEnv feedOld noFaults) "chan"
      [configEntry, record42] feedOld 0 (sampleItem "42" "A" (15 * 24)) "42"
      ⟨rfl, rfl, sampleConfig, sampleSub, by decide, by decide, by decide⟩
      (by decide) (by decide) (Or.inr (by decide))⟩

/-- C7: if the config record cannot be read (the get fails or the record is
absent), the keys cannot be listed, the config cannot be decoded, or the fetch
of the configured URL fails, refresh returns early: the store is exactly as
before and nothing was sent (no call was issued at all). -/
theorem refresh_aborts_unchanged (env : Env) (channel : String) (kv : KVStore)
    (h : env.faults.get = true ∨ kvLookup kv channel "keybase-rss" "config" = none ∨
      env.faults.keys = true ∨
      (∃ cfg, kvLookup kv channel "keybase-rss" "config" = some cfg ∧
        (env.unmarshalSub cfg = none ∨
          ∃ sub, env.unmarshalSub cfg = some sub ∧ env.parseURL sub.Url = none))) :
    refresh env channel kv = ⟨kv, [], .aborted⟩ := by
  unfold refresh kvGet kvKeys
  rcases h with h | h | h | ⟨cfg, hc, h | ⟨sub, hs, hf⟩⟩
  · simp [h]
  · cases env.faults.get <;> simp [h]
  · cases env.faults.get <;> cases kvLookup kv channel "keybase-rss" "config" <;> simp [h]
  · cases env.faults.get <;> cases env.faults.keys <;> simp [hc, h]
  · cases env.faults.get <;> cases env.faults.keys <;> simp [hc, hs, hf]

/-- Witness for C7: the fetch fails; the store with its config record and the
record `"42"` is untouched and nothing is sent. -/
theorem refresh_aborts_unchanged_witness :
    refresh envNoFeed "chan" [configEntry, record42]
      = ⟨[configEntry, record42], [], .aborted⟩ :=
  refresh_aborts_unchanged envNoFeed "chan" [configEntry, record42]
    (Or.inr (Or.inr (Or.inr ⟨sampleConfig, by decide,
      Or.inr ⟨sampleSub, by decide, rfl⟩⟩)))

/-- C8: when listing the keys and every delete succeed, after unsubscribe the
channel's namespace holds no key, the store's get of `"config"` answers
not-found, and a following status call sends nothing, whatever its own get
does. -/
theorem unsubscribe_then_status (faults : Faults) (channel : String) (kv : KVStore)
    (hkeys : faults.keys = false) (hdel : ∀ i, faults.delete i = false) :
    kvKeyList (unsubscribe faults channel kv) channel "keybase-rss" = [] ∧
      kvGet false (unsubscribe faults channel kv) channel "keybase-rss" "config"
        = .error .NotFound ∧
      ∀ faults2 : Faults, status faults2 channel (unsubscribe faults channel kv) = [] := by
  have hl := unsubscribe_lookup faults channel kv hkeys hdel
  refine ⟨?_, ?_, ?_⟩
  · rw [List.eq_nil_iff_forall_not_mem]
    intro k hk
    exact (mem_kvKeyList _ channel "keybase-rss" k).1 hk (hl k)
  · simp [kvGet, hl]
  · intro faults2
    unfold status kvGet
    cases faults2.get <;> simp [hl]

/-- Witness for C8: unsubscribing channel `chan` with a config record and one
item record empties the namespace. -/
theorem unsubscribe_then_status_witness :
    kvKeyList (unsubscribe noFaults "chan" [configEntry, record42]) "chan" "keybase-rss" = [] ∧
      kvGet false (unsubscribe noFaults "chan" [configEntry, record42]) "chan" "keybase-rss"
        "config" = .error .NotFound ∧
      ∀ faults2 : Faults,
        status faults2 "chan" (unsubscribe noFaults "chan" [configEntry, record42]) = [] :=
  unsubscribe_then_status noFaults "chan" [configEntry, record42] rfl (fun _ => rfl)

/-- C9, on the code: a feed item whose GUID is `"config"`, one hour old, makes
refresh delete the channel's config record: the call issues
`Delete("keybase-rss", "config")` and the key `"config"`, present before the
call, is absent after it. -/
theorem refresh_deletes_config :
    kvLookup [configEntry] "chan" "keybase-rss" "config" = some sampleConfig ∧
      (refresh (sampleEnv feedConfig noFaults) "chan" [configEntry]).log
        = [Event.delete 0 "config"] ∧
      kvLookup (refresh (sampleEnv feedConfig noFaults) "chan" [configEntry]).store
        "chan" "keybase-rss" "config" = none := by
  decide

/-- C10, on the code: a feed whose only item has no parsed publish time makes
refresh panic in the first round of the item loop (the dereference of
`item.PublishedParsed` at line 165), before any call is issued. -/
theorem refresh_panics_on_undated_item :
    refresh (sampleEnv feedUndated noFaults) "chan" [configEntry]
      = ⟨[configEntry], [], .panicked⟩ := by
  decide

end KeybaseRss
